import Mathlib

/-
Shallow embedding of the TownReady worker push dispatcher:
  * src/workers/server.py : `pubsub_push` (the POST /pubsub/push route) and
    `_verify_push` (OIDC push verification),
  * src/services/firestore_client.py : `JobsStore.update_status` / `JobsStore.get`
    (the job record store adapter; a Firestore document set with merge),
  * src/services/pubsub_client.py : `Publisher.publish_json`.

Modelling conventions:
  * The Firestore job document is a structure `JobDoc` holding exactly the
    top-level fields the dispatcher reads or writes.  `set(patch, merge=True)`
    computes its merge mask from the leaf field paths of the patch: a scalar
    or array value replaces the stored one, a non-empty map value merges
    key-wise into the stored map, an empty map is itself a leaf and replaces,
    and omitting a key from a written map does not delete the stored key.
    `mergePatch` models this; `keyMerge` is the key-wise map merge, applied to
    the two map-valued bookkeeping fields (`attempts`, integer-valued, where
    it is exact, and `results`).  One level down (the stage-result dicts
    inside `results`, and the `result` / `assets` fields) a written dict is
    modelled as replacing the stored one: no claim observes those inner
    values, and at every input evaluated here the written sub-dicts are
    either verbatim copies of the stored ones or are written where nothing is
    stored, so the modelled contents coincide with the leaf-path semantics.
    `retry` is always written with all of its (scalar) keys, so key-wise
    merge and replacement agree on it.  A merge against a missing document
    creates it (the "partial merge-update" contract of the Job Record Store).
  * JSON values are the inductive `Val`; Python truthiness of a value is
    `pyTruthy`; `x or y` on values is `pyOrVal`, on optional strings `pyStrOr`.
  * Stage handlers (`_build_plan` / `_build_scenario` / `_build_safety` /
    `_build_content`, together with their external inputs: region context,
    storage, Gemini) are external collaborators; they appear as the function
    `Env.handler task job_payload scenario_assets` returning either a result
    value or a raised exception message (`StageOutcome`).  The dispatcher-side
    routing (the if/elif chain on the task name, including the
    "Unknown task; acknowledged" fallthrough) is `routeTask`, which is part of
    the core and is modelled concretely.
  * The store and the publisher are modelled as reliable: point reads, merge
    writes and the retry republish do not themselves raise.  The one publish
    whose failure the claims probe - the best-effort chain publish wrapped in
    try/except pass - has an explicit reliability switch `Env.chainPublishOk`.
  * `random.uniform(0.0, 1.0)` is the rational parameter `Env.jitter`
    (hypotheses `0 ≤ jitter < 1` where a claim needs them); the float
    arithmetic of the backoff computation is carried out over `ℚ` with
    `Int.floor` for Python `int(...)` truncation of a nonnegative value.
  * `time.sleep` of a received `delay_ms` attribute has no effect on any state
    the claims mention and is not modelled; timestamps written by the adapter
    are threaded through as the explicit `now : Nat` argument.
  * Side effects are recorded in order in a trace (`Effect`): every
    merge-write and every successful publish appends one entry.
  * In the exception handler of `pubsub_push` (server.py lines 1238-1283) the
    names `js` and `update` are only bound when a truthy `job_id` was decoded;
    the call `js.update_status(job_id, "error", update)` on line 1271 is not
    inside any inner try block, so when `job_id` is missing it raises a Python
    `NameError` that escapes the route handler.  This is modelled by the
    `Outcome.unhandled` constructor.
-/

namespace TownReady

/-- JSON-like values stored in job documents and produced by stage handlers. -/
inductive Val where
  | null : Val
  | str : String → Val
  | nat : Nat → Val
  | arr : List Val → Val
  | obj : List (String × Val) → Val

/-- Python truthiness of a JSON value (used by `x or y` patterns). -/
def pyTruthy : Val → Bool
  | Val.null => false
  | Val.str s => !(s == "")
  | Val.nat n => n != 0
  | Val.arr xs => !xs.isEmpty
  | Val.obj fs => !fs.isEmpty

/-- Python `a or b` on JSON values. -/
def pyOrVal (a b : Val) : Val := if pyTruthy a then a else b

/-- Python `a or b` where `a` is an optional string (missing or empty falls through). -/
def pyStrOr (a : Option String) (b : String) : String :=
  match a with
  | some s => if s = "" then b else s
  | none => b

/-- `dict.get(k)` on a JSON object, `None`/missing modelled as `Val.null`
(the dispatcher only applies it to dict-valued fields). -/
def valGet (v : Val) (k : String) : Val :=
  match v with
  | Val.obj fs => (fs.lookup k).getD Val.null
  | _ => Val.null

/-- `retry` bookkeeping written on a scheduled retry (server.py line 1268). -/
structure RetryInfo where
  task : String
  attempt : Nat
  delay_ms : Int

/-- The job record: the top-level Firestore document fields the core touches.
Absent list/map fields are the empty list (the code reads them with `or []` /
`or {}`), absent scalar fields are `none`. -/
structure JobDoc where
  status : String := ""
  updated_at : Option Nat := none
  payload : Option Val := none
  task : Option String := none
  result : Option Val := none
  results : List (String × Val) := []
  assets : Option Val := none
  completed_tasks : List String := []
  completed_order : List String := []
  attempts : List (String × Nat) := []
  error : Option String := none
  retry : Option RetryInfo := none

/-- The document of a job id that has never been written. -/
def emptyDoc : JobDoc := {}

/-- A merge patch: the optional top-level keys an `update_status` call may carry
(beyond `status` and `updated_at`, which every call writes). -/
structure Patch where
  task : Option String := none
  result : Option Val := none
  results : Option (List (String × Val)) := none
  assets : Option Val := none
  completed_tasks : Option (List String) := none
  completed_order : Option (List String) := none
  attempts : Option (List (String × Nat)) := none
  error : Option String := none
  retry : Option RetryInfo := none

/-- A key present in the patch replaces the stored value, else the old value is kept. -/
def patchField {α : Type} (new old : Option α) : Option α :=
  match new with
  | some v => some v
  | none => old

/-- Firestore key-wise merge of a written map into a stored map, per the
leaf-path semantics of `set(..., merge=True)`: an empty written map is a leaf
and replaces the stored map; otherwise every stored key keeps its position
(its value replaced when the written map carries the key) and written-only
keys are appended in order.  A stored key absent from the written map is NOT
deleted. -/
def keyMerge {α : Type} (old new : List (String × α)) : List (String × α) :=
  if new.isEmpty then []
  else
    (old.map (fun kv =>
      match new.lookup kv.1 with
      | some v => (kv.1, v)
      | none => kv)) ++
    new.filter (fun kv => (old.lookup kv.1).isNone)

/-- `JobsStore.update_status`: build the merge patch `{"status": status,
"updated_at": now, **extra}` and apply it to the document with Firestore
merge semantics: scalars and arrays replace, the map-valued fields
(`attempts`, `results`) merge key-wise, absent keys keep stored values. -/
def mergePatch (d : JobDoc) (status : String) (now : Nat) (p : Patch) : JobDoc :=
  { status := status
    updated_at := some now
    payload := d.payload
    task := patchField p.task d.task
    result := patchField p.result d.result
    results := match p.results with
      | some newResults => keyMerge d.results newResults
      | none => d.results
    assets := patchField p.assets d.assets
    completed_tasks := p.completed_tasks.getD d.completed_tasks
    completed_order := p.completed_order.getD d.completed_order
    attempts := match p.attempts with
      | some newAttempts => keyMerge d.attempts newAttempts
      | none => d.attempts
    error := patchField p.error d.error
    retry := patchField p.retry d.retry }

/-- Insert or overwrite a key in an association list (Python dict assignment:
an existing key keeps its position, a new key is appended at the end). -/
def assocSet {α : Type} : List (String × α) → String → α → List (String × α)
  | [], k, v => [(k, v)]
  | (k2, v2) :: rest, k, v =>
      if k2 = k then (k, v) :: rest else (k2, v2) :: assocSet rest k v

/-- Remove a key from an association list (Python `dict.pop(k, None)`). -/
def assocErase {α : Type} (m : List (String × α)) (k : String) : List (String × α) :=
  m.filter (fun kv => !(kv.1 == k))

/-- The jobs collection: document id to document. -/
def Store : Type := List (String × JobDoc)

/-- `JobsStore.get`: point read; a missing document is `none`. -/
def storeGet (s : Store) (job_id : String) : Option JobDoc :=
  List.lookup job_id s

/-- `self.col.document(job_id).set(patch, merge=True)`: merge against the
current document, creating it when absent. -/
def update_status (s : Store) (job_id : String) (status : String) (now : Nat)
    (extra : Patch) : Store :=
  assocSet s job_id (mergePatch ((storeGet s job_id).getD emptyDoc) status now extra)

/-- Insert into an ascending list (helper for Python `sorted`). -/
def insSorted (x : String) : List String → List String
  | [] => [x]
  | y :: ys => if x ≤ y then x :: y :: ys else y :: insSorted x ys

/-- Ascending insertion sort (Python `sorted` on strings). -/
def sortAsc (l : List String) : List String := l.foldr insSorted []

/-- Python `sorted(list(set(l)))`. -/
def pySortedSet (l : List String) : List String := sortAsc l.dedup

/-- The decoded `data` blob of a push message: either the base64/JSON decoding
raises, or it exposes the two fields the dispatcher reads. -/
structure PushPayload where
  job_id : Option String := none
  task : Option String := none

inductive DataBlob where
  | undecodable : DataBlob
  | decoded : PushPayload → DataBlob

/-- The attribute map of a push message (only the keys the route reads). -/
structure MsgAttributes where
  type : Option String := none
  delay_ms : Option String := none

structure PushMessage where
  data : Option DataBlob := none
  attributes : Option MsgAttributes := none

/-- The POST body `{"message": {...}}`. -/
structure Body where
  message : Option PushMessage := none

/-- Python `str.lower()` (ASCII case folding; task names are ASCII). -/
def pyLower (s : String) : String := String.mk (s.data.map Char.toLower)

/-- server.py line 1139: `(payload.get("task") or attributes.get("type") or "unknown").lower()`. -/
def decodeTask (p : PushPayload) (attrs : MsgAttributes) : String :=
  pyLower (pyStrOr p.task (pyStrOr attrs.type "unknown"))

/-- The envelope codec slice of `pubsub_push` (server.py lines 1120-1141):
reject a missing data blob, an undecodable blob, or a missing/empty `job_id`;
otherwise expose the `(job_id, task)` pair. -/
def decodeEnvelope (body : Body) : Except String (String × String) :=
  match body.message with
  | none => Except.error "missing data"
  | some m =>
    match m.data with
    | none => Except.error "missing data"
    | some DataBlob.undecodable => Except.error "payload decode failed"
    | some (DataBlob.decoded p) =>
      match p.job_id with
      | none => Except.error "missing job_id"
      | some jid =>
        if jid = "" then Except.error "missing job_id"
        else Except.ok (jid, decodeTask p (m.attributes.getD {}))

/-- The outcome of `google_id_token.verify_oauth2_token` (external):
either it raises, or it returns a claims map with the fields `_verify_push` reads. -/
inductive TokenVerification where
  | raises : TokenVerification
  | claims (iss : String) (email : Option String) : TokenVerification

/-- The environment-derived settings the core consumes (src/services/config.py;
`Settings.load` is modelled as succeeding with these values). -/
structure Settings where
  push_verify : Bool := false
  push_audience : Option String := none
  push_service_account : Option String := none
  retry_max_attempts : Nat := 3

/-- The result of a stage handler call: a result value, or a raised exception. -/
inductive StageOutcome where
  | ok (result : Val) : StageOutcome
  | fail (err : String) : StageOutcome

/-- External collaborators and configuration of one worker process. -/
structure Env where
  settings : Settings
  /-- whether the google auth modules imported (server.py: `google_id_token is None`). -/
  libAvailable : Bool := true
  /-- the external token verifier, given the token and the expected audience. -/
  verifyToken : String → Option String → TokenVerification
  /-- the external stage handlers, given task name, job payload, scenario assets. -/
  handler : String → Val → Val → StageOutcome
  /-- the draw of `random.uniform(0.0, 1.0)` used for retry jitter. -/
  jitter : ℚ := 0
  /-- whether the best-effort chain publish succeeds (its failure is swallowed). -/
  chainPublishOk : Bool := true

/-- `auth.split(" ", 1)[1].strip()`. -/
def extractToken (auth : String) : String :=
  ((auth.dropWhile (fun c => c ≠ ' ')).drop 1).trim

/-- Python `in` on strings. -/
def strContains (hay needle : String) : Bool :=
  decide (List.IsInfix needle.toList hay.toList)

/-- `_verify_push` (server.py lines 566-590): pass when verification is
disabled; otherwise fail on a missing/malformed bearer header, a missing auth
library, a verification exception, a foreign issuer, or (when an expected
service account is configured and non-empty) a mismatched email claim. -/
def verify_push (env : Env) (authorization : Option String) : Bool :=
  if env.settings.push_verify = false then true
  else
    match authorization with
    | none => false
    | some auth =>
      if auth = "" then false
      else if !((pyLower auth).startsWith "bearer ") then false
      else if env.libAvailable = false then false
      else
        match env.verifyToken (extractToken auth) env.settings.push_audience with
        | TokenVerification.raises => false
        | TokenVerification.claims iss email =>
          if !(strContains iss "accounts.google.com") then false
          else
            match env.settings.push_service_account with
            | none => true
            | some expected => if expected = "" then true else email == some expected

/-- The fixed pipeline `["plan", "scenario", "safety", "content"]`. -/
def pipelineOrder : List String := ["plan", "scenario", "safety", "content"]

/-- `_next_task` (server.py lines 1222-1228): the successor in the fixed
sequence; `none` for the last member or a name outside the sequence. -/
def nextTask (cur : String) : Option String :=
  match pipelineOrder.findIdx? (fun t => t == cur) with
  | some i => pipelineOrder.get? (i + 1)
  | none => none

/-- Scenario assets passed to the safety/content handlers (server.py lines
1184, 1187): `(job_doc.get("assets") or {}) or
((job_doc.get("result") or {}).get("assets") or {})`. -/
def scenarioAssets (doc : JobDoc) : Val :=
  pyOrVal (doc.assets.getD (Val.obj []))
    (pyOrVal (valGet (doc.result.getD (Val.obj [])) "assets") (Val.obj []))

/-- The task routing if/elif chain (server.py lines 1178-1190); an
unrecognized task name yields the generic acknowledged result. -/
def routeTask (env : Env) (doc : JobDoc) (task : String) : StageOutcome :=
  if task = "plan" then env.handler task (doc.payload.getD (Val.obj [])) (Val.obj [])
  else if task = "scenario" then env.handler task (doc.payload.getD (Val.obj [])) (Val.obj [])
  else if task = "safety" then env.handler task (doc.payload.getD (Val.obj [])) (scenarioAssets doc)
  else if task = "content" then env.handler task (doc.payload.getD (Val.obj [])) (scenarioAssets doc)
  else StageOutcome.ok (Val.obj [("type", Val.str task), ("message", Val.str "Unknown task; acknowledged")])

/-- `extra_update["assets"]` is set only after `scenario` when the result is a
dict with a dict `assets` entry (server.py lines 1202-1203). -/
def resultAssets (result : Val) : Option Val :=
  match result with
  | Val.obj fs =>
    match fs.lookup "assets" with
    | some (Val.obj afs) => some (Val.obj afs)
    | _ => none
  | _ => none

/-- A recorded side effect: one merge-write or one successful publish. -/
inductive Effect where
  | update (job_id : String) (status : String) (extra : Patch) : Effect
  | publish (job_id : String) (task : String) (attr_type : String)
      (attr_delay_ms : Option Int) : Effect

/-- The messages published in a trace, as (job_id, task, delay attribute). -/
def publishedMsgs (tr : List Effect) : List (String × String × Option Int) :=
  tr.filterMap (fun e =>
    match e with
    | Effect.publish j t _ d => some (j, t, d)
    | _ => none)

/-- What the route invocation produced: a JSON acknowledgment body
(`status` / optional `detail` / optional `note`, always HTTP 200), or an
exception escaping the handler (the transport sees a 500). -/
inductive Outcome where
  | response (status : String) (detail : Option String) (note : Option String) : Outcome
  | unhandled (exc : String) : Outcome

structure PushResult where
  outcome : Outcome
  store : Store
  trace : List Effect

/-- The backoff seconds (server.py line 1261):
`min(30.0, float(2 ** min(attempt, 5)) + random.uniform(0.0, 1.0))`. -/
def backoff_delay_sec (attempt : Nat) (jitter : ℚ) : ℚ :=
  min 30 ((2 : ℚ) ^ (min attempt 5) + jitter)

/-- `delay_ms = int(delay_sec * 1000)` (server.py line 1262). -/
def backoff_delay_ms (attempt : Nat) (jitter : ℚ) : Int :=
  ⌊backoff_delay_sec attempt jitter * 1000⌋

/-- The incremented attempt counter for the failed task (server.py line 1251),
read back from the store at exception-handling time. -/
def errorAttemptCount (store : Store) (job_id tname : String) : Nat :=
  ((((storeGet store job_id).getD emptyDoc).attempts.lookup tname).getD 0) + 1

/-- The attempts map with the failed task's counter bumped. -/
def errorAttempts (store : Store) (job_id tname : String) : List (String × Nat) :=
  assocSet (((storeGet store job_id).getD emptyDoc).attempts) tname
    (errorAttemptCount store job_id tname)

/-- Whether the failed delivery is republished (server.py line 1258):
`tname not in {"", "unknown"} and amap[tname] < max_try`. -/
def retryEligible (env : Env) (store : Store) (job_id tname : String) : Prop :=
  tname ≠ "" ∧ tname ≠ "unknown" ∧
    errorAttemptCount store job_id tname < env.settings.retry_max_attempts

instance (env : Env) (store : Store) (job_id tname : String) :
    Decidable (retryEligible env store job_id tname) := by
  unfold retryEligible; infer_instance

/-- The `{"error": ..., "attempts": ...}` update written by the exception
handler, extended with retry bookkeeping when a retry was scheduled. -/
def errorPatch (env : Env) (store : Store) (job_id tname errMsg : String) : Patch :=
  if retryEligible env store job_id tname then
    { error := some errMsg
      attempts := some (errorAttempts store job_id tname)
      retry := some ⟨tname, errorAttemptCount store job_id tname,
        backoff_delay_ms (errorAttemptCount store job_id tname) env.jitter⟩ }
  else
    { error := some errMsg, attempts := some (errorAttempts store job_id tname) }

/-- The republish of the same `(job_id, task)` message carrying `delay_ms`
(server.py lines 1263-1267), when eligible. -/
def retryEffects (env : Env) (store : Store) (job_id tname : String) : List Effect :=
  if retryEligible env store job_id tname then
    [Effect.publish job_id tname tname
      (some (backoff_delay_ms (errorAttemptCount store job_id tname) env.jitter))]
  else []

/-- The outer exception handler of `pubsub_push` (server.py lines 1238-1283).
`bound = some (job_id, tname)` models a truthy decoded `job_id` (with the task
name, which is always bound alongside it); `bound = none` models an exception
raised before a truthy `job_id` existed, in which case the unprotected
`js.update_status(job_id, "error", update)` on line 1271 raises `NameError`
(`js` was never bound) and the exception escapes the route. -/
def errorHandler (env : Env) (now : Nat) (store : Store) (tr : List Effect)
    (bound : Option (String × String)) (errMsg : String) : PushResult :=
  match bound with
  | none => ⟨Outcome.unhandled "NameError", store, tr⟩
  | some (job_id, tname) =>
    { outcome := Outcome.response "ack_error" (some errMsg) none
      store := update_status store job_id "error" now (errorPatch env store job_id tname errMsg)
      trace := tr ++ retryEffects env store job_id tname ++
        [Effect.update job_id "error" (errorPatch env store job_id tname errMsg)] }

/-- The `{"task": task}` extra of the `processing` write (server.py line 1152). -/
def procPatch (task : String) : Patch := { task := some task }

def procEffect (job_id task : String) : Effect :=
  Effect.update job_id "processing" (procPatch task)

/-- The store after the best-effort `processing` marker write. -/
def storeAfterProcessing (store : Store) (job_id task : String) (now : Nat) : Store :=
  update_status store job_id "processing" now (procPatch task)

/-- `job_doc = jobs.get(job_id) or {}` (server.py line 1155); `current_doc`
(line 1205) is a second point read of the same document with no intervening
write, so it is the same value in this model. -/
def procDocOf (store : Store) (job_id task : String) (now : Nat) : JobDoc :=
  ((storeGet (storeAfterProcessing store job_id task now) job_id).getD emptyDoc)

/-- The merge-update written on task success (server.py lines 1192-1219):
set `results[task]` and `result`, optionally promote scenario assets, add the
task to the sorted `completed_tasks`, append it to `completed_order` unless
present, and drop its `attempts` entry. -/
def donePatchFor (doc : JobDoc) (task : String) (result : Val) : Patch :=
  { result := some result
    results := some (assocSet doc.results task result)
    assets := if task = "scenario" then resultAssets result else none
    completed_tasks := some (pySortedSet (doc.completed_tasks ++ [task]))
    completed_order := some (if task ∈ doc.completed_order then doc.completed_order
      else doc.completed_order ++ [task])
    attempts := some (assocErase doc.attempts task) }

/-- The best-effort chain publish of the successor task (server.py lines
1221-1236): nothing for the last or an unknown task; a swallowed failure
publishes nothing. -/
def chainEffects (env : Env) (job_id task : String) : List Effect :=
  match nextTask task with
  | some nt => if env.chainPublishOk then [Effect.publish job_id nt nt none] else []
  | none => []

/-- Dispatch of a decoded, authorized, not-yet-completed task: mark
processing, re-read the document, route to the stage handler, then either the
success merge-update followed by the chain publish, or the exception handler. -/
def processTask (env : Env) (now : Nat) (store : Store) (job_id task : String) : PushResult :=
  match routeTask env (procDocOf store job_id task now) task with
  | StageOutcome.fail err =>
      errorHandler env now (storeAfterProcessing store job_id task now)
        [procEffect job_id task] (some (job_id, task)) err
  | StageOutcome.ok result =>
      { outcome := Outcome.response "ack" none none
        store := update_status (storeAfterProcessing store job_id task now) job_id "done" now
          (donePatchFor (procDocOf store job_id task now) task result)
        trace := procEffect job_id task ::
          Effect.update job_id "done" (donePatchFor (procDocOf store job_id task now) task result) ::
          chainEffects env job_id task }

/-- The body of `pubsub_push` after the auth guard: decode, per-task
idempotency check, then dispatch.  A decode failure reaches the exception
handler with no truthy `job_id` bound. -/
def pushAfterAuth (env : Env) (now : Nat) (store : Store) (body : Body) : PushResult :=
  match decodeEnvelope body with
  | Except.error err => errorHandler env now store [] none err
  | Except.ok (job_id, task) =>
    match storeGet store job_id with
    | some existing =>
      if task ∈ existing.completed_tasks then
        ⟨Outcome.response "ack" none (some "already_completed_task"), store, []⟩
      else processTask env now store job_id task
    | none => processTask env now store job_id task

/-- `pubsub_push` (server.py lines 1115-1283). -/
def pubsub_push (env : Env) (now : Nat) (store : Store) (body : Body)
    (authorization : Option String) : PushResult :=
  if verify_push env authorization then pushAfterAuth env now store body
  else ⟨Outcome.response "ack_error" (some "unauthorized") none, store, []⟩

/-! Sample external collaborators and inputs used by witnesses and
counterexamples. -/

/-- A stage handler that always succeeds. -/
def okHandler : String → Val → Val → StageOutcome :=
  fun t _ _ => StageOutcome.ok (Val.obj [("type", Val.str t)])

/-- A stage handler that always raises. -/
def failHandler : String → Val → Val → StageOutcome :=
  fun _ _ _ => StageOutcome.fail "boom"

/-- A worker with push verification disabled and succeeding handlers. -/
def envAuthOff : Env :=
  { settings := {}, verifyToken := fun _ _ => TokenVerification.raises, handler := okHandler }

/-- A worker with push verification disabled and failing handlers. -/
def envFail : Env :=
  { settings := {}, verifyToken := fun _ _ => TokenVerification.raises, handler := failHandler }

/-- A worker with push verification enabled. -/
def envAuthOn : Env :=
  { settings := { push_verify := true },
    verifyToken := fun _ _ => TokenVerification.raises, handler := okHandler }

/-- A well-formed envelope for the given job id and task. -/
def bodyFor (jid task : String) : Body :=
  { message := some { data := some (DataBlob.decoded { job_id := some jid, task := some task }) } }

/-! Association list and store lemmas. -/

theorem lookup_assocSet {α : Type} (m : List (String × α)) (k : String) (v : α) (j : String) :
    (assocSet m k v).lookup j = if j = k then some v else m.lookup j := by
  induction m with
  | nil =>
    by_cases h : j = k
    · subst h; simp [assocSet, List.lookup]
    · simp [assocSet, List.lookup, h, beq_eq_false_iff_ne.mpr h]
  | cons hd tl ih =>
    obtain ⟨k2, v2⟩ := hd
    by_cases h2 : k2 = k
    · subst h2
      by_cases h : j = k2
      · subst h; simp [assocSet, List.lookup]
      · simp [assocSet, List.lookup, h, beq_eq_false_iff_ne.mpr h]
    · by_cases h : j = k2
      · subst h
        simp [assocSet, h2, List.lookup, Ne.symm h2]
      · simp [assocSet, h2, List.lookup, h, beq_eq_false_iff_ne.mpr h, ih]

theorem lookup_assocErase {α : Type} (m : List (String × α)) (k : String) :
    (assocErase m k).lookup k = none := by
  induction m with
  | nil => simp [assocErase]
  | cons hd tl ih =>
    obtain ⟨k2, v2⟩ := hd
    by_cases h : k2 = k
    · simpa [assocErase, List.filter_cons, h] using ih
    · have hb : (k == k2) = false := beq_eq_false_iff_ne.mpr (Ne.symm h)
      have hb2 : (k2 == k) = false := beq_eq_false_iff_ne.mpr h
      simpa [assocErase, List.filter_cons, hb2, List.lookup, hb] using ih

theorem lookup_append {α : Type} (l1 l2 : List (String × α)) (k : String) :
    (l1 ++ l2).lookup k =
      match l1.lookup k with
      | some v => some v
      | none => l2.lookup k := by
  induction l1 with
  | nil => simp [List.lookup]
  | cons hd tl ih =>
    obtain ⟨k2, v2⟩ := hd
    by_cases h : k = k2
    · subst h
      simp [List.lookup]
    · simp [List.lookup, beq_eq_false_iff_ne.mpr h, ih]

theorem lookup_map_update {α : Type} (old new : List (String × α)) (k : String) :
    (old.map (fun kv =>
      match new.lookup kv.1 with
      | some v => (kv.1, v)
      | none => kv)).lookup k =
      match old.lookup k with
      | none => none
      | some ov =>
        match new.lookup k with
        | some v => some v
        | none => some ov := by
  induction old with
  | nil => simp [List.lookup]
  | cons hd tl ih =>
    obtain ⟨k2, v2⟩ := hd
    by_cases h : k = k2
    · subst h
      cases hnew : List.lookup k new <;> simp [List.lookup, hnew]
    · have hb := beq_eq_false_iff_ne.mpr h
      cases hnew : List.lookup k2 new <;> simp [List.lookup, hnew, hb, ih]

theorem lookup_filter_none {α : Type} (old new : List (String × α)) (k : String)
    (h : old.lookup k = none) :
    (new.filter (fun kv => (old.lookup kv.1).isNone)).lookup k = new.lookup k := by
  induction new with
  | nil => simp
  | cons hd tl ih =>
    obtain ⟨k2, v2⟩ := hd
    by_cases hk : k = k2
    · subst hk
      simp [List.filter_cons, h, List.lookup]
    · have hb := beq_eq_false_iff_ne.mpr hk
      cases hp : (List.lookup k2 old).isNone <;>
        simp [List.filter_cons, hp, List.lookup, hb, ih]

theorem assocSet_isEmpty {α : Type} (m : List (String × α)) (k : String) (v : α) :
    (assocSet m k v).isEmpty = false := by
  cases m with
  | nil => rfl
  | cons hd tl =>
    obtain ⟨k2, v2⟩ := hd
    unfold assocSet
    split <;> rfl

/-- Lookup after a Firestore key-wise map merge: a key written by the
(non-empty) patch map carries the written value, any other stored key keeps
its stored value. -/
theorem lookup_keyMerge {α : Type} (old new : List (String × α)) (k : String)
    (h : new.isEmpty = false) :
    (keyMerge old new).lookup k =
      match new.lookup k with
      | some v => some v
      | none => old.lookup k := by
  unfold keyMerge
  rw [if_neg (by simp [h])]
  rw [lookup_append, lookup_map_update]
  cases hold : List.lookup k old with
  | some ov =>
    cases hnew : List.lookup k new <;> simp [hnew]
  | none =>
    rw [lookup_filter_none old new k hold]
    cases hnew : List.lookup k new <;> simp [hnew, hold]

theorem mem_insSorted (x a : String) (l : List String) :
    a ∈ insSorted x l ↔ a = x ∨ a ∈ l := by
  induction l with
  | nil => simp [insSorted]
  | cons y ys ih =>
    by_cases h : x ≤ y
    · simp [insSorted, h]
    · simp [insSorted, h, ih]
      tauto

theorem mem_sortAsc (a : String) (l : List String) : a ∈ sortAsc l ↔ a ∈ l := by
  induction l with
  | nil => simp [sortAsc]
  | cons y ys ih =>
    show a ∈ insSorted y (sortAsc ys) ↔ _
    rw [mem_insSorted, ih]
    simp

theorem mem_pySortedSet (a : String) (l : List String) : a ∈ pySortedSet l ↔ a ∈ l := by
  unfold pySortedSet
  rw [mem_sortAsc, List.mem_dedup]

theorem storeGet_update_status (s : Store) (jid st : String) (now : Nat) (p : Patch)
    (j : String) :
    storeGet (update_status s jid st now p) j =
      if j = jid then some (mergePatch ((storeGet s jid).getD emptyDoc) st now p)
      else storeGet s j := by
  unfold update_status storeGet
  exact lookup_assocSet s jid _ j

/-! Small computation lemmas about the patches the dispatcher writes. -/

theorem errorPatch_completed_tasks (env : Env) (s : Store) (jid t e : String) :
    (errorPatch env s jid t e).completed_tasks = none := by
  unfold errorPatch; split <;> rfl

theorem errorPatch_attempts (env : Env) (s : Store) (jid t e : String) :
    (errorPatch env s jid t e).attempts = some (errorAttempts s jid t) := by
  unfold errorPatch; split <;> rfl

theorem errorPatch_error (env : Env) (s : Store) (jid t e : String) :
    (errorPatch env s jid t e).error = some e := by
  unfold errorPatch; split <;> rfl

/-- The attempt counter the exception handler computes after the `processing`
marker write equals one plus the counter stored before the delivery. -/
theorem errorAttemptCount_after_processing (store : Store) (jid task : String) (now : Nat) :
    errorAttemptCount (storeAfterProcessing store jid task now) jid task =
      ((((storeGet store jid).getD emptyDoc).attempts.lookup task).getD 0) + 1 := by
  unfold errorAttemptCount storeAfterProcessing
  rw [storeGet_update_status]
  simp [mergePatch, procPatch]

/-- The document visible to the dispatch step keeps the pre-delivery values of
every field the `processing` marker does not touch. -/
theorem procDocOf_fields (store : Store) (jid task : String) (now : Nat) :
    (procDocOf store jid task now).payload = ((storeGet store jid).getD emptyDoc).payload ∧
    (procDocOf store jid task now).results = ((storeGet store jid).getD emptyDoc).results ∧
    (procDocOf store jid task now).completed_tasks =
      ((storeGet store jid).getD emptyDoc).completed_tasks ∧
    (procDocOf store jid task now).completed_order =
      ((storeGet store jid).getD emptyDoc).completed_order ∧
    (procDocOf store jid task now).attempts = ((storeGet store jid).getD emptyDoc).attempts := by
  unfold procDocOf storeAfterProcessing
  rw [storeGet_update_status]
  simp [mergePatch, procPatch]

/-- Task names of the pipeline are neither empty nor the literal `unknown`. -/
theorem pipeline_task_ne (task : String) (h : task ∈ pipelineOrder) :
    task ≠ "" ∧ task ≠ "unknown" := by
  simp [pipelineOrder] at h
  rcases h with h | h | h | h <;> subst h <;> exact ⟨by decide, by decide⟩

/-! C1 -/

/-- C1: the claim states that every exception raised while processing a push,
including validation errors from a missing/undecodable payload or a missing
`job_id`, is caught at the outermost dispatch boundary and surfaced as an
`ack_error` acknowledgment.  The code does not do this: when no truthy
`job_id` was decoded, the exception handler itself raises `NameError` at the
unprotected `js.update_status(job_id, "error", update)` (server.py line 1271),
and the exception escapes the route.  This theorem evaluates the model at two
failing inputs: a body with no message data, and a decodable payload with no
`job_id`. -/
theorem C1_validation_error_escapes :
    pubsub_push envAuthOff 0 [] { message := none } none =
      ⟨Outcome.unhandled "NameError", [], []⟩ ∧
    pubsub_push envAuthOff 0 []
        { message := some { data := some (DataBlob.decoded
            { job_id := none, task := some "plan" }) } } none =
      ⟨Outcome.unhandled "NameError", [], []⟩ :=
  ⟨rfl, rfl⟩

/-! C2 -/

/-- C2: delivering a message for a `(job_id, task)` pair whose task is already
in the job's `completed_tasks` yields the `already_completed_task`
acknowledgment, leaves the whole store (hence `results`, `completed_order`
and `attempts` of every job) unchanged, and records no effect at all — in
particular no chained publish. -/
theorem C2_idempotent_redelivery (env : Env) (now : Nat) (store : Store) (body : Body)
    (auth : Option String) (jid task : String) (doc : JobDoc)
    (hv : verify_push env auth = true)
    (hd : decodeEnvelope body = Except.ok (jid, task))
    (hl : storeGet store jid = some doc)
    (hc : task ∈ doc.completed_tasks) :
    pubsub_push env now store body auth =
      ⟨Outcome.response "ack" none (some "already_completed_task"), store, []⟩ := by
  simp [pubsub_push, hv, pushAfterAuth, hd, hl, hc]

/-- A job document whose `plan` task has already completed. -/
def docC2 : JobDoc :=
  { status := "done", results := [("plan", Val.obj [("type", Val.str "plan")])],
    completed_tasks := ["plan"], completed_order := ["plan"] }

def storeC2 : Store := [("j1", docC2)]

theorem C2_idempotent_redelivery_witness :
    verify_push envAuthOff none = true ∧
    decodeEnvelope (bodyFor "j1" "plan") = Except.ok ("j1", "plan") ∧
    storeGet storeC2 "j1" = some docC2 ∧
    "plan" ∈ docC2.completed_tasks ∧
    pubsub_push envAuthOff 0 storeC2 (bodyFor "j1" "plan") none =
      ⟨Outcome.response "ack" none (some "already_completed_task"), storeC2, []⟩ :=
  ⟨rfl, rfl, rfl, by decide,
    C2_idempotent_redelivery envAuthOff 0 storeC2 (bodyFor "j1" "plan") none "j1" "plan" docC2
      rfl rfl rfl (by decide)⟩

/-! C8 -/

/-- Modelled from the spec: the task name as §4.1 words it — the lower-cased
payload `task` field when present and non-empty, otherwise the lower-cased
attribute `type` when present and non-empty, otherwise the literal
`unknown` (fallback half). -/
def specTaskFromAttr (attrs : MsgAttributes) : String :=
  match attrs.type with
  | some s => if s = "" then "unknown" else pyLower s
  | none => "unknown"

/-- Modelled from the spec: the task name as §4.1 words it (payload half). -/
def specDecodedTask (p : PushPayload) (attrs : MsgAttributes) : String :=
  match p.task with
  | some s => if s = "" then specTaskFromAttr attrs else pyLower s
  | none => specTaskFromAttr attrs

theorem pyLower_unknown : pyLower "unknown" = "unknown" := rfl

theorem decodeTask_eq_spec (p : PushPayload) (attrs : MsgAttributes) :
    decodeTask p attrs = specDecodedTask p attrs := by
  cases hpt : p.task with
  | some s =>
    by_cases hs : s = ""
    · cases hat : attrs.type with
      | some s2 =>
        by_cases hs2 : s2 = ""
        · simp [decodeTask, specDecodedTask, specTaskFromAttr, pyStrOr, hpt, hat, hs, hs2,
            pyLower_unknown]
        · simp [decodeTask, specDecodedTask, specTaskFromAttr, pyStrOr, hpt, hat, hs, hs2]
      | none =>
        simp [decodeTask, specDecodedTask, specTaskFromAttr, pyStrOr, hpt, hat, hs,
          pyLower_unknown]
    · simp [decodeTask, specDecodedTask, specTaskFromAttr, pyStrOr, hpt, hs]
  | none =>
    cases hat : attrs.type with
    | some s2 =>
      by_cases hs2 : s2 = ""
      · simp [decodeTask, specDecodedTask, specTaskFromAttr, pyStrOr, hpt, hat, hs2,
          pyLower_unknown]
      · simp [decodeTask, specDecodedTask, specTaskFromAttr, pyStrOr, hpt, hat, hs2]
    | none =>
      simp [decodeTask, specDecodedTask, specTaskFromAttr, pyStrOr, hpt, hat, pyLower_unknown]

/-- C8: for every decodable envelope the decoded task name is the lower-cased
payload `task` field when present and non-empty, else the lower-cased
attribute `type` when present and non-empty, else `unknown`; and the delivery
is rejected as a validation error exactly when the data blob is missing or
undecodable or the decoded `job_id` is missing or empty. -/
theorem C8_envelope_codec (body : Body) :
    (∀ m p jid task, body.message = some m → m.data = some (DataBlob.decoded p) →
      decodeEnvelope body = Except.ok (jid, task) →
      task = specDecodedTask p (m.attributes.getD {})) ∧
    ((∃ err, decodeEnvelope body = Except.error err) ↔
      body.message = none ∨
        ∃ m, body.message = some m ∧
          (m.data = none ∨ m.data = some DataBlob.undecodable ∨
            ∃ p, m.data = some (DataBlob.decoded p) ∧
              (p.job_id = none ∨ p.job_id = some ""))) := by
  constructor
  · intro m p jid task hm hdata hdec
    cases hjid : p.job_id with
    | none =>
      simp [decodeEnvelope, hm, hdata, hjid] at hdec
    | some s =>
      by_cases hs : s = ""
      · simp [decodeEnvelope, hm, hdata, hjid, hs] at hdec
      · simp only [decodeEnvelope, hm, hdata, hjid, hs, if_neg, if_false,
          Except.ok.injEq, Prod.mk.injEq] at hdec
        rw [← hdec.2, decodeTask_eq_spec]
  · constructor
    · rintro ⟨err, herr⟩
      cases hm : body.message with
      | none => exact Or.inl rfl
      | some m =>
        refine Or.inr ⟨m, rfl, ?_⟩
        cases hdata : m.data with
        | none => exact Or.inl rfl
        | some blob =>
          cases blob with
          | undecodable => exact Or.inr (Or.inl rfl)
          | decoded p =>
            refine Or.inr (Or.inr ⟨p, rfl, ?_⟩)
            cases hjid : p.job_id with
            | none => exact Or.inl rfl
            | some s =>
              by_cases hs : s = ""
              · exact Or.inr (by rw [hs])
              · exfalso
                simp [decodeEnvelope, hm, hdata, hjid, hs] at herr
    · rintro (hm | ⟨m, hm, h | h | ⟨p, hp, h0 | h0⟩⟩)
      · exact ⟨"missing data", by simp [decodeEnvelope, hm]⟩
      · exact ⟨"missing data", by simp [decodeEnvelope, hm, h]⟩
      · exact ⟨"payload decode failed", by simp [decodeEnvelope, hm, h]⟩
      · exact ⟨"missing job_id", by simp [decodeEnvelope, hm, hp, h0]⟩
      · exact ⟨"missing job_id", by simp [decodeEnvelope, hm, hp, h0]⟩

def bodyC8 : Body :=
  { message := some
      { data := some (DataBlob.decoded { job_id := some "j1", task := some "PLAN" }) } }

theorem C8_envelope_codec_witness :
    bodyC8.message = some
      { data := some (DataBlob.decoded { job_id := some "j1", task := some "PLAN" }) } ∧
    decodeEnvelope bodyC8 = Except.ok ("j1", "plan") ∧
    ("plan" : String) =
      specDecodedTask { job_id := some "j1", task := some "PLAN" } {} :=
  ⟨rfl, rfl,
    (C8_envelope_codec bodyC8).1
      { data := some (DataBlob.decoded { job_id := some "j1", task := some "PLAN" }) }
      { job_id := some "j1", task := some "PLAN" } "j1" "plan" rfl rfl rfl⟩

/-! C9 -/

/-- C9: with push verification disabled the guard always passes and the
request proceeds to the normal dispatch body; with verification enabled, a
failed guard (token absent, empty or malformed bearer header, or a raising
token verification — fail-closed) makes the route return the `unauthorized`
error acknowledgment with the store untouched and no effect recorded, i.e.
before any job read or write. -/
theorem C9_auth_gating (env : Env) (now : Nat) (store : Store) (body : Body)
    (auth : Option String) :
    (env.settings.push_verify = false →
      verify_push env auth = true ∧
      pubsub_push env now store body auth = pushAfterAuth env now store body) ∧
    (verify_push env auth = false →
      pubsub_push env now store body auth =
        ⟨Outcome.response "ack_error" (some "unauthorized") none, store, []⟩) ∧
    (env.settings.push_verify = true →
      (auth = none → verify_push env auth = false) ∧
      (∀ s, auth = some s → (s = "" ∨ ((pyLower s).startsWith "bearer ") = false) →
        verify_push env auth = false) ∧
      (∀ s, auth = some s →
        env.verifyToken (extractToken s) env.settings.push_audience =
          TokenVerification.raises →
        verify_push env auth = false)) := by
  refine ⟨?_, ?_, ?_⟩
  · intro hoff
    have hv : verify_push env auth = true := by unfold verify_push; simp [hoff]
    exact ⟨hv, by simp [pubsub_push, hv]⟩
  · intro hv
    simp [pubsub_push, hv]
  · intro hon
    refine ⟨?_, ?_, ?_⟩
    · intro hnone
      unfold verify_push
      simp [hon, hnone]
    · intro s hs hbad
      unfold verify_push
      rw [hs]
      rcases hbad with hempty | hprefix
      · simp [hon, hempty]
      · simp [hon, hprefix]
    · intro s hs hraises
      unfold verify_push
      rw [hs]
      by_cases hempty : s = ""
      · simp [hon, hempty]
      · by_cases hpre : ((pyLower s).startsWith "bearer ") = true
        · by_cases hlib : env.libAvailable = false
          · simp [hon, hempty, hpre, hlib]
          · simp [hon, hempty, hpre, hlib, hraises]
        · have hpre2 : ((pyLower s).startsWith "bearer ") = false := by
            revert hpre
            cases (pyLower s).startsWith "bearer " <;> simp
          simp [hon, hempty, hpre2]

theorem C9_auth_gating_witness :
    envAuthOn.settings.push_verify = true ∧
    verify_push envAuthOn none = false ∧
    pubsub_push envAuthOn 0 [] { message := none } none =
      ⟨Outcome.response "ack_error" (some "unauthorized") none, [], []⟩ :=
  ⟨rfl, rfl, (C9_auth_gating envAuthOn 0 [] { message := none } none).2.1 rfl⟩

/-! C5 -/

/-- C5: the computed retry delay for attempt count `a` equals
`min 30000 (1000 * 2 ^ min a 5 + j)` for some jitter `j ∈ [0, 1000)` ms, the
delays for attempts 1..5 are non-decreasing for every choice of jitters, and
no delay exceeds 30000 ms. -/
theorem C5_backoff_monotone_bounded (a : Nat) (q : ℚ) (h0 : 0 ≤ q) (h1 : q < 1) :
    (∃ j : ℤ, 0 ≤ j ∧ j < 1000 ∧
      backoff_delay_ms a q = min 30000 (1000 * 2 ^ (min a 5) + j)) ∧
    (∀ a2 q2, 1 ≤ a → a < a2 → a2 ≤ 5 → 0 ≤ q2 → q2 < 1 →
      backoff_delay_ms a q ≤ backoff_delay_ms a2 q2) ∧
    backoff_delay_ms a q ≤ 30000 := by
  have hj0 : (0:ℤ) ≤ ⌊(1000:ℚ) * q⌋ := Int.le_floor.mpr (by push_cast; linarith)
  have hj1 : ⌊(1000:ℚ) * q⌋ < 1000 := Int.floor_lt.mpr (by push_cast; linarith)
  refine ⟨⟨⌊(1000:ℚ) * q⌋, hj0, hj1, ?_⟩, ?_, ?_⟩
  · rcases le_or_lt 5 a with h5 | h5
    · have hm : min a 5 = 5 := min_eq_right h5
      have hsec : backoff_delay_sec a q = 30 := by
        unfold backoff_delay_sec
        rw [hm]
        exact min_eq_left (by norm_num; linarith)
      unfold backoff_delay_ms
      rw [hsec, hm]
      have h30 : ⌊(30:ℚ) * 1000⌋ = (30000:ℤ) := by
        rw [show (30:ℚ) * 1000 = ((30000:ℤ):ℚ) by norm_num]
        exact Int.floor_intCast _
      rw [h30]
      rw [min_eq_left (by norm_num; linarith)]
    · have hm : min a 5 = a := min_eq_left (by omega)
      have hpow : (2:ℚ) ^ a ≤ 16 := by
        calc (2:ℚ) ^ a ≤ 2 ^ 4 := pow_le_pow_right₀ (by norm_num) (by omega)
          _ = 16 := by norm_num
      have hsec : backoff_delay_sec a q = (2:ℚ) ^ a + q := by
        unfold backoff_delay_sec
        rw [hm]
        exact min_eq_right (by linarith)
      unfold backoff_delay_ms
      rw [hsec]
      have hfl : ⌊((2:ℚ) ^ a + q) * 1000⌋ = 1000 * (2:ℤ) ^ a + ⌊(1000:ℚ) * q⌋ := by
        have hq : ((2:ℚ) ^ a + q) * 1000 = (1000:ℚ) * q + ((1000 * 2 ^ a : ℤ) : ℚ) := by
          push_cast
          ring
        rw [hq, Int.floor_add_int]
        ring
      rw [hfl, hm]
      have h2a : (2:ℤ) ^ a ≤ 16 := by
        calc (2:ℤ) ^ a ≤ 2 ^ 4 := pow_le_pow_right₀ (by norm_num) (by omega)
          _ = 16 := by norm_num
      rw [min_eq_right (by linarith)]
  · intro a2 q2 ha1 haa ha5 hq20 hq21
    unfold backoff_delay_ms
    apply Int.floor_le_floor
    apply mul_le_mul_of_nonneg_right _ (by norm_num : (0:ℚ) ≤ 1000)
    unfold backoff_delay_sec
    apply min_le_min le_rfl
    rw [min_eq_left (by omega : a ≤ 5), min_eq_left (by omega : a2 ≤ 5)]
    have h1le : (1:ℚ) ≤ 2 ^ a := by
      calc (1:ℚ) = 2 ^ 0 := by norm_num
        _ ≤ 2 ^ a := pow_le_pow_right₀ (by norm_num) (Nat.zero_le a)
    have hsucc : (2:ℚ) ^ (a + 1) ≤ 2 ^ a2 := pow_le_pow_right₀ (by norm_num) (by omega)
    have hdouble : (2:ℚ) ^ (a + 1) = 2 ^ a + 2 ^ a := by ring
    linarith
  · unfold backoff_delay_ms
    have hle : backoff_delay_sec a q * 1000 ≤ 30000 := by
      have hmin := min_le_left (30:ℚ) ((2:ℚ) ^ (min a 5) + q)
      have := mul_le_mul_of_nonneg_right hmin (by norm_num : (0:ℚ) ≤ 1000)
      unfold backoff_delay_sec
      linarith
    calc ⌊backoff_delay_sec a q * 1000⌋ ≤ ⌊(30000:ℚ)⌋ := Int.floor_le_floor hle
      _ = 30000 := by
        rw [show (30000:ℚ) = ((30000:ℤ):ℚ) by norm_num]
        exact Int.floor_intCast _

theorem C5_backoff_witness :
    (0:ℚ) ≤ 1/2 ∧ (1:ℚ)/2 < 1 ∧
    ((∃ j : ℤ, 0 ≤ j ∧ j < 1000 ∧
        backoff_delay_ms 2 (1/2) = min 30000 (1000 * 2 ^ (min 2 5) + j)) ∧
      (∀ a2 q2, 1 ≤ 2 → 2 < a2 → a2 ≤ 5 → 0 ≤ q2 → q2 < 1 →
        backoff_delay_ms 2 (1/2) ≤ backoff_delay_ms a2 q2) ∧
      backoff_delay_ms 2 (1/2) ≤ 30000) :=
  ⟨by norm_num, by norm_num,
    C5_backoff_monotone_bounded 2 (1/2) (by norm_num) (by norm_num)⟩

/-! C3 -/

/-- Extracting the pre-delivery document when the merged document's
bookkeeping came from the store. -/
theorem completed_base (store : Store) (jid0 j : String) (t : String)
    (hj : j = jid0)
    (ht : t ∈ ((storeGet store jid0).getD emptyDoc).completed_tasks) :
    ∃ d, storeGet store j = some d ∧ t ∈ d.completed_tasks := by
  cases hl : storeGet store jid0 with
  | none =>
    rw [hl] at ht
    simp [emptyDoc] at ht
  | some d =>
    rw [hl] at ht
    simp only [Option.getD_some] at ht
    exact ⟨d, by rw [hj]; exact hl, ht⟩

/-- Every member of `completed_tasks` of any document after a dispatch is
either the delivered task name or was already present before the delivery. -/
theorem processTask_completed_sub (env : Env) (now : Nat) (store : Store)
    (jid0 task0 j : String) (doc : JobDoc)
    (h : storeGet (processTask env now store jid0 task0).store j = some doc) :
    ∀ t ∈ doc.completed_tasks,
      t = task0 ∨ ∃ d, storeGet store j = some d ∧ t ∈ d.completed_tasks := by
  intro t ht
  unfold processTask at h
  cases hr : routeTask env (procDocOf store jid0 task0 now) task0 with
  | fail err =>
    simp only [hr] at h
    simp only [errorHandler] at h
    rw [storeGet_update_status] at h
    by_cases hj : j = jid0
    · rw [if_pos hj] at h
      have hdoc := Option.some_inj.mp h
      rw [← hdoc] at ht
      simp only [mergePatch, errorPatch_completed_tasks, Option.getD_none] at ht
      have hfields := (procDocOf_fields store jid0 task0 now).2.2.1
      rw [show ((storeGet (storeAfterProcessing store jid0 task0 now) jid0).getD emptyDoc) =
        procDocOf store jid0 task0 now from rfl, hfields] at ht
      exact Or.inr (completed_base store jid0 j t hj ht)
    · rw [if_neg hj] at h
      unfold storeAfterProcessing at h
      rw [storeGet_update_status, if_neg hj] at h
      exact Or.inr ⟨doc, h, ht⟩
  | ok r =>
    simp only [hr] at h
    rw [storeGet_update_status] at h
    by_cases hj : j = jid0
    · rw [if_pos hj] at h
      have hdoc := Option.some_inj.mp h
      rw [← hdoc] at ht
      simp only [mergePatch, donePatchFor, Option.getD_some] at ht
      rw [mem_pySortedSet] at ht
      rcases List.mem_append.mp ht with hin | hin
      · have hfields := (procDocOf_fields store jid0 task0 now).2.2.1
        rw [hfields] at hin
        exact Or.inr (completed_base store jid0 j t hj hin)
      · exact Or.inl (List.mem_singleton.mp hin)
    · rw [if_neg hj] at h
      unfold storeAfterProcessing at h
      rw [storeGet_update_status, if_neg hj] at h
      exact Or.inr ⟨doc, h, ht⟩

/-- C3 counterexample: the claim says `completed_tasks` stays inside
`{plan, scenario, safety, content}` for every reachable job record, but
delivering a well-formed envelope with task name `cleanup` to a fresh job
makes the dispatcher record `completed_tasks = ["cleanup"]` (the unknown-task
fallthrough completes like any other task). -/
theorem C3_subset_counterexample :
    (storeGet (pubsub_push envAuthOff 0 [] (bodyFor "j1" "cleanup") none).store "j1").map
      JobDoc.completed_tasks = some ["cleanup"] ∧
    "cleanup" ∉ pipelineOrder :=
  ⟨rfl, by decide⟩

/-- C3 (amended): the dispatcher only ever adds the delivered task name to
`completed_tasks`; consequently `completed_tasks ⊆ {plan, scenario, safety,
content}` is an invariant of `pubsub_push` provided every delivered task name
belongs to the pipeline set. -/
theorem C3_completed_tasks_subset (env : Env) (now : Nat) (store : Store) (body : Body)
    (auth : Option String)
    (hbody : ∀ jid task, decodeEnvelope body = Except.ok (jid, task) → task ∈ pipelineOrder)
    (hinv : ∀ jid doc, storeGet store jid = some doc →
      ∀ t ∈ doc.completed_tasks, t ∈ pipelineOrder) :
    ∀ jid doc, storeGet (pubsub_push env now store body auth).store jid = some doc →
      ∀ t ∈ doc.completed_tasks, t ∈ pipelineOrder := by
  intro jid doc h t ht
  by_cases hv : verify_push env auth = true
  · rw [show pubsub_push env now store body auth = pushAfterAuth env now store body by
      simp [pubsub_push, hv]] at h
    cases hd : decodeEnvelope body with
    | error e =>
      rw [show pushAfterAuth env now store body =
          errorHandler env now store [] none e by
        unfold pushAfterAuth; simp [hd]] at h
      exact hinv jid doc h t ht
    | ok pr =>
      obtain ⟨jid0, task0⟩ := pr
      have htask0 : task0 ∈ pipelineOrder := hbody jid0 task0 hd
      unfold pushAfterAuth at h
      simp only [hd] at h
      cases hl : storeGet store jid0 with
      | some ex =>
        simp only [hl] at h
        by_cases hc : task0 ∈ ex.completed_tasks
        · rw [if_pos hc] at h
          exact hinv jid doc h t ht
        · rw [if_neg hc] at h
          rcases processTask_completed_sub env now store jid0 task0 jid doc h t ht with
            heq | ⟨d, hdl, hdm⟩
          · rw [heq]; exact htask0
          · exact hinv jid d hdl t hdm
      | none =>
        simp only [hl] at h
        rcases processTask_completed_sub env now store jid0 task0 jid doc h t ht with
          heq | ⟨d, hdl, hdm⟩
        · rw [heq]; exact htask0
        · exact hinv jid d hdl t hdm
  · have hv2 : verify_push env auth = false := by
      revert hv; cases verify_push env auth <;> simp
    rw [show pubsub_push env now store body auth =
        ⟨Outcome.response "ack_error" (some "unauthorized") none, store, []⟩ by
      simp [pubsub_push, hv2]] at h
    exact hinv jid doc h t ht

theorem C3_completed_tasks_subset_witness :
    (∀ jid task, decodeEnvelope (bodyFor "j1" "plan") = Except.ok (jid, task) →
      task ∈ pipelineOrder) ∧
    (∀ jid (doc : JobDoc), storeGet ([] : Store) jid = some doc →
      ∀ t ∈ doc.completed_tasks, t ∈ pipelineOrder) ∧
    (∀ jid doc,
      storeGet (pubsub_push envAuthOff 0 [] (bodyFor "j1" "plan") none).store jid = some doc →
      ∀ t ∈ doc.completed_tasks, t ∈ pipelineOrder) := by
  have hbody : ∀ jid task, decodeEnvelope (bodyFor "j1" "plan") = Except.ok (jid, task) →
      task ∈ pipelineOrder := by
    intro jid task h
    rw [show decodeEnvelope (bodyFor "j1" "plan") = Except.ok ("j1", "plan") from rfl] at h
    obtain ⟨h1, h2⟩ := Prod.mk.injEq .. ▸ Except.ok.inj h
    rw [← h2]
    decide
  have hinv : ∀ jid (doc : JobDoc), storeGet ([] : Store) jid = some doc →
      ∀ t ∈ doc.completed_tasks, t ∈ pipelineOrder := by
    intro jid doc h
    exact absurd h (by simp [storeGet])
  exact ⟨hbody, hinv, C3_completed_tasks_subset envAuthOff 0 [] (bodyFor "j1" "plan") none hbody hinv⟩

/-! Branch reduction lemmas shared by the dispatch claims. -/

/-- With a passing guard, a decoded envelope and no idempotency hit, the route
runs the dispatch step. -/
theorem pubsub_push_dispatches (env : Env) (now : Nat) (store : Store) (body : Body)
    (auth : Option String) (jid task : String)
    (hv : verify_push env auth = true)
    (hd : decodeEnvelope body = Except.ok (jid, task))
    (hidem : ∀ doc, storeGet store jid = some doc → task ∉ doc.completed_tasks) :
    pubsub_push env now store body auth = processTask env now store jid task := by
  rw [show pubsub_push env now store body auth = pushAfterAuth env now store body by
    simp [pubsub_push, hv]]
  unfold pushAfterAuth
  simp only [hd]
  cases hl : storeGet store jid with
  | none => rfl
  | some doc => simp [hidem doc hl]

theorem processTask_fail (env : Env) (now : Nat) (store : Store) (jid task err : String)
    (hfail : routeTask env (procDocOf store jid task now) task = StageOutcome.fail err) :
    processTask env now store jid task =
      errorHandler env now (storeAfterProcessing store jid task now)
        [procEffect jid task] (some (jid, task)) err := by
  unfold processTask
  simp only [hfail]

theorem processTask_ok (env : Env) (now : Nat) (store : Store) (jid task : String) (r : Val)
    (hok : routeTask env (procDocOf store jid task now) task = StageOutcome.ok r) :
    processTask env now store jid task =
      { outcome := Outcome.response "ack" none none
        store := update_status (storeAfterProcessing store jid task now) jid "done" now
          (donePatchFor (procDocOf store jid task now) task r)
        trace := procEffect jid task ::
          Effect.update jid "done" (donePatchFor (procDocOf store jid task now) task r) ::
          chainEffects env jid task } := by
  unfold processTask
  simp only [hok]

/-- The attempt counter the dispatcher stored for a task before the delivery. -/
def priorAttempts (store : Store) (jid task : String) : Nat :=
  (((storeGet store jid).getD emptyDoc).attempts.lookup task).getD 0

/-! C4 -/

/-- C4: on a stage-handler failure, the task's attempt counter is incremented
by exactly one; the same `(job_id, task)` message is republished with a
`delay_ms` attribute if and only if the incremented counter is still below
`retry_max_attempts`; and the job is left in `error` status with the last
exception message recorded (in particular, with the default bound 3 a third
consecutive failure republishes nothing). -/
theorem C4_retry_controller (env : Env) (now : Nat) (store : Store) (body : Body)
    (auth : Option String) (jid task err : String)
    (hv : verify_push env auth = true)
    (hd : decodeEnvelope body = Except.ok (jid, task))
    (hidem : ∀ doc, storeGet store jid = some doc → task ∉ doc.completed_tasks)
    (htask : task ∈ pipelineOrder)
    (hfail : routeTask env (procDocOf store jid task now) task = StageOutcome.fail err) :
    ∃ doc2, storeGet (pubsub_push env now store body auth).store jid = some doc2 ∧
      doc2.attempts.lookup task = some (priorAttempts store jid task + 1) ∧
      doc2.status = "error" ∧
      doc2.error = some err ∧
      (priorAttempts store jid task + 1 < env.settings.retry_max_attempts →
        publishedMsgs (pubsub_push env now store body auth).trace =
          [(jid, task,
            some (backoff_delay_ms (priorAttempts store jid task + 1) env.jitter))]) ∧
      (¬ priorAttempts store jid task + 1 < env.settings.retry_max_attempts →
        publishedMsgs (pubsub_push env now store body auth).trace = []) := by
  rw [pubsub_push_dispatches env now store body auth jid task hv hd hidem,
    processTask_fail env now store jid task err hfail]
  have hne := pipeline_task_ne task htask
  have hcnt := errorAttemptCount_after_processing store jid task now
  refine ⟨mergePatch ((storeGet (storeAfterProcessing store jid task now) jid).getD emptyDoc)
      "error" now (errorPatch env (storeAfterProcessing store jid task now) jid task err),
    ?_, ?_, ?_, ?_, ?_, ?_⟩
  · simp only [errorHandler]
    rw [storeGet_update_status, if_pos rfl]
  · simp only [mergePatch, errorPatch_attempts, errorAttempts]
    rw [lookup_keyMerge _ _ _ (assocSet_isEmpty _ _ _)]
    rw [lookup_assocSet, if_pos rfl]
    simp only [hcnt]
    rfl
  · rfl
  · simp only [mergePatch, errorPatch_error, patchField]
  · intro hlt
    have helig : retryEligible env (storeAfterProcessing store jid task now) jid task :=
      ⟨hne.1, hne.2, by rw [hcnt]; exact hlt⟩
    simp only [errorHandler]
    simp [publishedMsgs, retryEffects, helig, procEffect, hcnt, priorAttempts]
  · intro hlt
    have hnelig : ¬ retryEligible env (storeAfterProcessing store jid task now) jid task := by
      intro h
      have h22 := h.2.2
      rw [hcnt] at h22
      exact hlt h22
    simp only [errorHandler]
    simp [publishedMsgs, retryEffects, hnelig, procEffect]

/-- A job whose `plan` stage has already failed twice. -/
def docC4 : JobDoc := { status := "error", attempts := [("plan", 2)] }

def storeC4 : Store := [("j1", docC4)]

theorem C4_retry_controller_witness :
    verify_push envFail none = true ∧
    decodeEnvelope (bodyFor "j1" "plan") = Except.ok ("j1", "plan") ∧
    (∀ doc, storeGet storeC4 "j1" = some doc → "plan" ∉ doc.completed_tasks) ∧
    "plan" ∈ pipelineOrder ∧
    routeTask envFail (procDocOf storeC4 "j1" "plan" 0) "plan" = StageOutcome.fail "boom" ∧
    priorAttempts storeC4 "j1" "plan" + 1 = 3 ∧
    (∃ doc2, storeGet (pubsub_push envFail 0 storeC4 (bodyFor "j1" "plan") none).store "j1" =
        some doc2 ∧
      doc2.attempts.lookup "plan" = some (priorAttempts storeC4 "j1" "plan" + 1) ∧
      doc2.status = "error" ∧
      doc2.error = some "boom" ∧
      (priorAttempts storeC4 "j1" "plan" + 1 < envFail.settings.retry_max_attempts →
        publishedMsgs (pubsub_push envFail 0 storeC4 (bodyFor "j1" "plan") none).trace =
          [("j1", "plan",
            some (backoff_delay_ms (priorAttempts storeC4 "j1" "plan" + 1) envFail.jitter))]) ∧
      (¬ priorAttempts storeC4 "j1" "plan" + 1 < envFail.settings.retry_max_attempts →
        publishedMsgs (pubsub_push envFail 0 storeC4 (bodyFor "j1" "plan") none).trace = [])) := by
  have hidem : ∀ doc, storeGet storeC4 "j1" = some doc → "plan" ∉ doc.completed_tasks := by
    intro doc h
    have hdoc : docC4 = doc := Option.some_inj.mp h
    rw [← hdoc]
    decide
  exact ⟨rfl, rfl, hidem, by decide, rfl, rfl,
    C4_retry_controller envFail 0 storeC4 (bodyFor "j1" "plan") none "j1" "plan" "boom"
      rfl rfl hidem (by decide) rfl⟩

/-! C7 -/

/-- The store after a first delivery of `plan` whose handler fails:
`attempts = {"plan": 1}`. -/
def storeC7a : Store := (pubsub_push envFail 0 [] (bodyFor "j1" "plan") none).store

/-- The store after a subsequent out-of-order delivery of `scenario` (spec §5
contemplates out-of-order arrival) whose handler also fails:
`attempts = {"plan": 1, "scenario": 1}`. -/
def storeC7b : Store := (pubsub_push envFail 0 storeC7a (bodyFor "j1" "scenario") none).store

/-- C7: the claim states that the success merge-update removes the key `task`
from `attempts`, so that afterwards `attempts[task]` is absent whenever
`completed_tasks` contains `task`.  The code pops the key from its local copy
(server.py lines 1216-1218, under the comment "Reset attempts for this task
after success") but writes the map back through `set(..., merge=True)`, whose
leaf-path merge does not delete a stored map key that is merely omitted from
the written map.  Hence whenever another task still holds a counter, the
popped `attempts[task]` persists in the store.  This theorem evaluates the
reachable scenario: `plan` fails once, `scenario` is delivered out of order
and fails once, then `plan` succeeds - afterwards `completed_tasks` contains
`plan` and `results["plan"]` holds the handler output, yet
`attempts["plan"] = 1` remains. -/
theorem C7_attempts_key_persists :
    (storeGet storeC7b "j1").map JobDoc.attempts =
      some [("plan", 1), ("scenario", 1)] ∧
    (storeGet (pubsub_push envAuthOff 0 storeC7b (bodyFor "j1" "plan") none).store "j1").map
      JobDoc.completed_tasks = some ["plan"] ∧
    (storeGet (pubsub_push envAuthOff 0 storeC7b (bodyFor "j1" "plan") none).store "j1").map
      (fun d => d.results.lookup "plan") =
      some (some (Val.obj [("type", Val.str "plan")])) ∧
    (storeGet (pubsub_push envAuthOff 0 storeC7b (bodyFor "j1" "plan") none).store "j1").map
      (fun d => d.attempts.lookup "plan") = some (some 1) :=
  ⟨rfl, rfl, rfl, rfl⟩
/-! C6 -/

/-- C6: after a successful task, exactly one chain publish (carrying the
successor task) is attempted when the task has a successor in the fixed
sequence, and it is recorded strictly after the `done` merge-update; for the
last task or a name outside the sequence nothing is published; and a failure
of the chain publish leaves the recorded success (the resulting store and the
`ack` response) unchanged. -/
theorem C6_chaining (env : Env) (now : Nat) (store : Store) (body : Body)
    (auth : Option String) (jid task : String) (r : Val)
    (hv : verify_push env auth = true)
    (hd : decodeEnvelope body = Except.ok (jid, task))
    (hidem : ∀ doc, storeGet store jid = some doc → task ∉ doc.completed_tasks)
    (hok : routeTask env (procDocOf store jid task now) task = StageOutcome.ok r) :
    (∀ nt, nextTask task = some nt →
      (env.chainPublishOk = true →
        (pubsub_push env now store body auth).trace =
          [procEffect jid task,
           Effect.update jid "done" (donePatchFor (procDocOf store jid task now) task r),
           Effect.publish jid nt nt none] ∧
        publishedMsgs (pubsub_push env now store body auth).trace = [(jid, nt, none)]) ∧
      (env.chainPublishOk = false →
        publishedMsgs (pubsub_push env now store body auth).trace = [])) ∧
    (nextTask task = none →
      publishedMsgs (pubsub_push env now store body auth).trace = []) ∧
    (pubsub_push env now store body auth).outcome = Outcome.response "ack" none none ∧
    (pubsub_push env now store body auth).store =
      (pubsub_push { env with chainPublishOk := !env.chainPublishOk }
        now store body auth).store := by
  have hv2 : verify_push { env with chainPublishOk := !env.chainPublishOk } auth = true := hv
  have hok2 : routeTask { env with chainPublishOk := !env.chainPublishOk }
      (procDocOf store jid task now) task = StageOutcome.ok r := hok
  rw [pubsub_push_dispatches env now store body auth jid task hv hd hidem,
    processTask_ok env now store jid task r hok,
    pubsub_push_dispatches { env with chainPublishOk := !env.chainPublishOk }
      now store body auth jid task hv2 hd hidem,
    processTask_ok { env with chainPublishOk := !env.chainPublishOk }
      now store jid task r hok2]
  refine ⟨?_, ?_, rfl, rfl⟩
  · intro nt hnt
    constructor
    · intro hcp
      constructor
      · simp [chainEffects, hnt, hcp]
      · simp [publishedMsgs, chainEffects, hnt, hcp, procEffect]
    · intro hcp
      simp [publishedMsgs, chainEffects, hnt, hcp, procEffect]
  · intro hnt
    simp [publishedMsgs, chainEffects, hnt, procEffect]

theorem C6_chaining_witness :
    verify_push envAuthOff none = true ∧
    decodeEnvelope (bodyFor "j1" "plan") = Except.ok ("j1", "plan") ∧
    (∀ doc, storeGet ([] : Store) "j1" = some doc → "plan" ∉ doc.completed_tasks) ∧
    routeTask envAuthOff (procDocOf [] "j1" "plan" 0) "plan" =
      StageOutcome.ok (Val.obj [("type", Val.str "plan")]) ∧
    nextTask "plan" = some "scenario" ∧
    ((∀ nt, nextTask "plan" = some nt →
      (envAuthOff.chainPublishOk = true →
        (pubsub_push envAuthOff 0 [] (bodyFor "j1" "plan") none).trace =
          [procEffect "j1" "plan",
           Effect.update "j1" "done"
             (donePatchFor (procDocOf [] "j1" "plan" 0) "plan"
               (Val.obj [("type", Val.str "plan")])),
           Effect.publish "j1" nt nt none] ∧
        publishedMsgs (pubsub_push envAuthOff 0 [] (bodyFor "j1" "plan") none).trace =
          [("j1", nt, none)]) ∧
      (envAuthOff.chainPublishOk = false →
        publishedMsgs (pubsub_push envAuthOff 0 [] (bodyFor "j1" "plan") none).trace = [])) ∧
    (nextTask "plan" = none →
      publishedMsgs (pubsub_push envAuthOff 0 [] (bodyFor "j1" "plan") none).trace = []) ∧
    (pubsub_push envAuthOff 0 [] (bodyFor "j1" "plan") none).outcome =
      Outcome.response "ack" none none ∧
    (pubsub_push envAuthOff 0 [] (bodyFor "j1" "plan") none).store =
      (pubsub_push { envAuthOff with chainPublishOk := !envAuthOff.chainPublishOk }
        0 [] (bodyFor "j1" "plan") none).store) := by
  have hidem : ∀ doc, storeGet ([] : Store) "j1" = some doc → "plan" ∉ doc.completed_tasks := by
    intro doc h
    exact absurd h (by simp [storeGet])
  exact ⟨rfl, rfl, hidem, rfl, rfl,
    C6_chaining envAuthOff 0 [] (bodyFor "j1" "plan") none "j1" "plan"
      (Val.obj [("type", Val.str "plan")]) rfl rfl hidem rfl⟩

/-! C10 -/

theorem pySortedSet_singleton (t : String) : pySortedSet [t] = [t] := by
  unfold pySortedSet sortAsc
  rw [List.dedup_eq_self.mpr (List.nodup_singleton t)]
  rfl

/-- C10: a valid envelope whose job id has no job record is not rejected: the
idempotency check is skipped, the task is dispatched against an absent
payload, and the merge-writes create a fresh document carrying status,
bookkeeping and the task result but no payload. -/
theorem C10_unknown_job_creates_doc (env : Env) (now : Nat) (store : Store) (body : Body)
    (auth : Option String) (jid task : String) (r : Val)
    (hv : verify_push env auth = true)
    (hd : decodeEnvelope body = Except.ok (jid, task))
    (hnone : storeGet store jid = none)
    (hok : routeTask env (procDocOf store jid task now) task = StageOutcome.ok r) :
    (procDocOf store jid task now).payload = none ∧
    ∃ doc2, storeGet (pubsub_push env now store body auth).store jid = some doc2 ∧
      doc2.status = "done" ∧
      doc2.payload = none ∧
      doc2.results.lookup task = some r ∧
      doc2.completed_tasks = [task] ∧
      doc2.completed_order = [task] ∧
      doc2.attempts = [] ∧
      (pubsub_push env now store body auth).outcome = Outcome.response "ack" none none := by
  have hidem : ∀ d, storeGet store jid = some d → task ∉ d.completed_tasks := by
    intro d hd2
    rw [hnone] at hd2
    exact absurd hd2 (by simp)
  have hgd : (storeGet store jid).getD emptyDoc = emptyDoc := by rw [hnone]; rfl
  have hfields := procDocOf_fields store jid task now
  constructor
  · rw [hfields.1, hgd]
    rfl
  rw [pubsub_push_dispatches env now store body auth jid task hv hd hidem,
    processTask_ok env now store jid task r hok]
  refine ⟨mergePatch (procDocOf store jid task now) "done" now
      (donePatchFor (procDocOf store jid task now) task r),
    ?_, rfl, ?_, ?_, ?_, ?_, ?_, rfl⟩
  · show storeGet (update_status (storeAfterProcessing store jid task now) jid "done" now
        (donePatchFor (procDocOf store jid task now) task r)) jid = _
    rw [storeGet_update_status, if_pos rfl]
    rfl
  · show (procDocOf store jid task now).payload = none
    rw [hfields.1, hgd]
    rfl
  · simp only [mergePatch, donePatchFor]
    rw [lookup_keyMerge _ _ _ (assocSet_isEmpty _ _ _)]
    rw [lookup_assocSet, if_pos rfl]
  · simp only [mergePatch, donePatchFor, Option.getD_some]
    rw [hfields.2.2.1, hgd]
    exact pySortedSet_singleton task
  · simp only [mergePatch, donePatchFor, Option.getD_some]
    rw [hfields.2.2.2.1, hgd]
    simp [emptyDoc]
  · simp only [mergePatch, donePatchFor, Option.getD_some]
    rw [show (procDocOf store jid task now).attempts = emptyDoc.attempts by
      rw [hfields.2.2.2.2, hgd]]
    rfl

theorem C10_unknown_job_creates_doc_witness :
    verify_push envAuthOff none = true ∧
    decodeEnvelope (bodyFor "jNew" "plan") = Except.ok ("jNew", "plan") ∧
    storeGet ([] : Store) "jNew" = none ∧
    routeTask envAuthOff (procDocOf [] "jNew" "plan" 0) "plan" =
      StageOutcome.ok (Val.obj [("type", Val.str "plan")]) ∧
    ((procDocOf [] "jNew" "plan" 0).payload = none ∧
    ∃ doc2, storeGet (pubsub_push envAuthOff 0 [] (bodyFor "jNew" "plan") none).store "jNew" =
        some doc2 ∧
      doc2.status = "done" ∧
      doc2.payload = none ∧
      doc2.results.lookup "plan" = some (Val.obj [("type", Val.str "plan")]) ∧
      doc2.completed_tasks = ["plan"] ∧
      doc2.completed_order = ["plan"] ∧
      doc2.attempts = [] ∧
      (pubsub_push envAuthOff 0 [] (bodyFor "jNew" "plan") none).outcome =
        Outcome.response "ack" none none) :=
  ⟨rfl, rfl, rfl, rfl,
    C10_unknown_job_creates_doc envAuthOff 0 [] (bodyFor "jNew" "plan") none "jNew" "plan"
      (Val.obj [("type", Val.str "plan")]) rfl rfl rfl rfl⟩

end TownReady
